import Mathlib

/-!
Verification of the todo GraphQL backend (src/index.js).

The server stores `Todo` documents in a MongoDB collection through mongoose
and exposes the resolvers `Query.todosList`, `Mutation.create`,
`Mutation.update`, `Mutation.complete`, `Mutation.delete` and a custom
`Date` scalar.  We embed the collection as a `List Todo` (in insertion
order, the storage-native order) and give each resolver an explicit-state
functional semantics.  The storage primitives (`Todo.find` with filter and
sort, `findOneAndUpdate` with mongoose's `$set`-wrapping of plain update
documents and `new: true`, `deleteOne`) are modelled after MongoDB's
documented behaviour: `findOneAndUpdate` updates the first matching
document and returns the updated one, `deleteOne` removes at most one
matching document and reports the deleted count.
-/

/-- A persisted Todo document (mongoose schema `todoSchema` plus the
`_id` assigned by the store).  `createdAt` is an epoch-millisecond
timestamp. -/
structure Todo where
  _id : Nat
  description : String
  createdAt : Int
  completed : Bool
  priority : Int
deriving Repr, DecidableEq

/-- MongoDB `Model.find({_id: id})` restricted to the first match:
`find?` over the collection, used to state what a given id refers to. -/
def findTodo (id : Nat) (db : List Todo) : Option Todo :=
  db.find? (fun t => t._id == id)

/-- MongoDB `Model.findOneAndUpdate({_id: id}, upd, {new: true})` where the
update document is a plain object (mongoose wraps it in `$set`): the first
document whose `_id` matches is replaced by its update in place; the
returned value is the updated document (`new: true`), or `null` when no
document matches.  The collection is returned alongside. -/
def findOneAndUpdate (id : Nat) (upd : Todo → Todo) : List Todo → Option Todo × List Todo
  | [] => (none, [])
  | t :: ts =>
    if t._id = id then
      (some (upd t), upd t :: ts)
    else
      let r := findOneAndUpdate id upd ts
      (r.1, t :: r.2)

/-- MongoDB `Model.deleteOne({_id: id})`: removes at most one matching
document and returns the `deletedCount` (0 or 1) with the new collection. -/
def deleteOne (id : Nat) : List Todo → Nat × List Todo
  | [] => (0, [])
  | t :: ts =>
    if t._id = id then
      (1, ts)
    else
      let r := deleteOne id ts
      (r.1, t :: r.2)

/-- Ascending comparison of two Todos on the field named `f`, the
per-field order MongoDB's sort uses on the stored values (strings
lexicographically, numbers and timestamps numerically, `false < true`);
a name that is no field of the schema compares every pair of documents
equal (MongoDB sorts on a missing field). -/
def fieldLeAsc (f : String) (a b : Todo) : Bool :=
  if f = "description" then decide (a.description ≤ b.description)
  else if f = "createdAt" then decide (a.createdAt ≤ b.createdAt)
  else if f = "completed" then !a.completed || b.completed
  else if f = "priority" then decide (a.priority ≤ b.priority)
  else if f = "_id" then decide (a._id ≤ b._id)
  else true

/-- Sort of the result set by field `f`, descending when `desc`. -/
def sortTodos (f : String) (desc : Bool) (l : List Todo) : List Todo :=
  if desc then l.mergeSort (fun a b => fieldLeAsc f b a)
  else l.mergeSort (fieldLeAsc f)

/-- JavaScript's `toLowerCase` on the order strings in play: each
character is lowercased (ASCII). -/
def jsToLower (s : String) : String := ⟨s.data.map Char.toLower⟩

/-- mquery's validation of a sort value (`Todo.find`'s `sort` option):
the value is stringified and lowercased, `asc`/`ascending`/`1` sort
ascending, `desc`/`descending`/`-1` descending, anything else throws
`Invalid sort value`.  `some true` means descending. -/
def parseOrder (s : String) : Option Bool :=
  let l := jsToLower s
  if l = "asc" || l = "ascending" || l = "1" then some false
  else if l = "desc" || l = "descending" || l = "-1" then some true
  else none

/-- The filter `completed !== null ? { completed: completed } : {}` applied
by `Todo.find`: with `some b` only documents whose `completed` field equals
`b` match, with `none` (the resolver's `completed = null` default, i.e. the
argument was omitted) every document matches. -/
def applyFilter (completed : Option Bool) (db : List Todo) : List Todo :=
  match completed with
  | some b => db.filter (fun t => t.completed == b)
  | none => db

namespace Query

/-- Resolver `Query.todosList` of src/index.js: filters by `completed`
only when the argument was provided, then, when `sortBy` is truthy
(provided and not the empty string), sorts by that field in the direction
`order` (resolver default `"ASC"`); an invalid `order` string makes
mongoose throw, which the resolver rewraps into an `ApolloError`. -/
def todosList (sortBy : Option String) (order : String) (completed : Option Bool)
    (db : List Todo) : Except String (List Todo) :=
  let filtered := applyFilter completed db
  match sortBy with
  | none => .ok filtered
  | some f =>
    if f = "" then .ok filtered
    else
      match parseOrder order with
      | some d => .ok (sortTodos f d filtered)
      | none => .error "Invalid sort value"

end Query

/-- Arguments of `Mutation.create`; `none` in an optional field means the
argument was omitted, so the resolver's parameter default applies. -/
structure CreateArgs where
  description : String
  createdAt : Option Int
  completed : Option Bool
  priority : Option Int

namespace Mutation

/-- Resolver `Mutation.create` of src/index.js: parameter defaults
`createdAt = new Date()` (the current time `now`), `completed = false`,
`priority = 1`, then `new Todo({...}).save()` persists the document with
the store-assigned id `newId` and returns it. -/
def create (now : Int) (newId : Nat) (a : CreateArgs) (db : List Todo) :
    Todo × List Todo :=
  let t : Todo :=
    { _id := newId
      description := a.description
      createdAt := a.createdAt.getD now
      completed := a.completed.getD false
      priority := a.priority.getD 1 }
  (t, db ++ [t])

/-- Resolver `Mutation.update` of src/index.js: parameter default
`priority = 1`, coercion `validPriority = priority > 0 ? priority : 1`,
then `findOneAndUpdate({_id: id}, {description, priority: validPriority},
{new: true})`. -/
def update (id : Nat) (description : String) (priority : Option Int)
    (db : List Todo) : Option Todo × List Todo :=
  let p := priority.getD 1
  let validPriority := if p > 0 then p else 1
  findOneAndUpdate id
    (fun t => { t with description := description, priority := validPriority }) db

/-- Resolver `Mutation.complete` of src/index.js:
`findOneAndUpdate({_id: id}, {completed: true}, {new: true})`. -/
def complete (id : Nat) (db : List Todo) : Option Todo × List Todo :=
  findOneAndUpdate id (fun t => { t with completed := true }) db

/-- Resolver `Mutation.delete` of src/index.js: `deleteOne({_id: id})`
followed by `Boolean(success.deletedCount)`. -/
def delete (id : Nat) (db : List Todo) : Bool × List Todo :=
  let r := deleteOne id db
  (r.1 != 0, r.2)

end Mutation

/-- Kinds of GraphQL AST value nodes the `Date` scalar's `parseLiteral`
discriminates on (`graphql/language` `Kind`). -/
inductive GKind where
  | INT
  | FLOAT
  | STRING
  | BOOLEAN
deriving Repr, DecidableEq

/-- A GraphQL literal node as seen by `parseLiteral`: its kind and its
`value` field, which graphql-js fills with the literal's raw text as a
string (an `IntValueNode`'s `value` is the digit string, not a number). -/
structure AstNode where
  kind : GKind
  value : String
deriving Repr, DecidableEq

/-- A JavaScript value handed to the scalar: a number or a string. -/
inductive JSValue where
  | num (n : Int)
  | str (s : String)
deriving Repr, DecidableEq

/-- A JavaScript time value as a `Date` holds it: a definite
epoch-millisecond count, the NaN of an invalid date, or the
implementation-defined result of date-string parsing a string whose
parse the embedding does not pin down further. -/
inductive JSTime where
  | msec (n : Int)
  | nan
  | parsed (s : String)
deriving Repr, DecidableEq, BEq

/-- A JavaScript `Date`, identified by its time value. -/
structure JSDate where
  time : JSTime
deriving Repr, DecidableEq

/-- Date-string parsing, which `new Date` applies to a string argument
(ECMAScript routes string arguments through `Date.parse`, never through
number conversion).  The date-time string format's years have four
digits (expanded years carry a sign), so a bare run of five or more
digits — an epoch-millisecond literal in particular — matches no
supported format and engines yield an invalid date for it.  A shorter
digit string or any other text falls to implementation-defined fallback
parsing (a year, a month, an ISO date, ...), whose result the embedding
keeps symbolic as `parsed`; in no case is the string read as an
epoch-millisecond count. -/
def jsParseDateString (s : String) : JSTime :=
  if 5 ≤ s.length ∧ s.data.all Char.isDigit = true then JSTime.nan
  else JSTime.parsed s

/-- The `new Date(value)` constructor: a number argument becomes the
date with that epoch-millisecond time value, a string argument is
date-string parsed. -/
def newDate : JSValue → JSDate
  | .num n => ⟨JSTime.msec n⟩
  | .str s => ⟨jsParseDateString s⟩

namespace DateScalar

/-- The `Date` scalar's `serialize(value)`: `value.getTime()`, the
date's time value — the epoch-millisecond integer when the date is
valid, NaN when it is not. -/
def serialize (d : JSDate) : JSTime := d.time

/-- The `Date` scalar's `parseValue(value)`: `new Date(value)` on the
supplied value. -/
def parseValue (v : JSValue) : JSDate := newDate v

/-- The `Date` scalar's `parseLiteral(ast)`: for an `INT` literal the
code runs `new Date(ast.value)` on the node's raw string, every other
literal kind yields `null`. -/
def parseLiteral (a : AstNode) : Option JSDate :=
  if a.kind = GKind.INT then some (newDate (JSValue.str a.value)) else none

end DateScalar

/-! Basic lemmas about the storage primitives. -/

/-- When no document matches the id, `findOneAndUpdate` returns `null`
and leaves the collection unchanged. -/
theorem findOneAndUpdate_not_found (id : Nat) (upd : Todo → Todo) (db : List Todo)
    (h : ∀ t ∈ db, t._id ≠ id) : findOneAndUpdate id upd db = (none, db) := by
  induction db with
  | nil => rfl
  | cons a ts ih =>
    have ha : a._id ≠ id := h a (List.mem_cons_self a ts)
    simp [findOneAndUpdate, ha, ih (fun t ht => h t (List.mem_cons_of_mem a ht))]

/-- When the id refers to the document `t` and the update preserves ids,
`findOneAndUpdate` returns the updated document, which is now what the
id refers to in the collection and is a member of it. -/
theorem findOneAndUpdate_found (id : Nat) (upd : Todo → Todo)
    (hid : ∀ u, (upd u)._id = u._id) :
    ∀ (db : List Todo) (t : Todo), findTodo id db = some t →
      (findOneAndUpdate id upd db).1 = some (upd t) ∧
      findTodo id (findOneAndUpdate id upd db).2 = some (upd t) ∧
      upd t ∈ (findOneAndUpdate id upd db).2 := by
  intro db
  induction db with
  | nil => intro t h; simp [findTodo] at h
  | cons a ts ih =>
    intro t h
    by_cases ha : a._id = id
    · have hpa : (fun u => u._id == id) a = true := by simp [ha]
      rw [findTodo, @List.find?_cons_of_pos _ (fun u => u._id == id) a ts hpa] at h
      have hta : t = a := (Option.some.injEq _ _).mp h.symm
      subst hta
      have hpu : (fun u => u._id == id) (upd t) = true := by simp [hid, ha]
      refine ⟨by simp [findOneAndUpdate, ha], ?_, by simp [findOneAndUpdate, ha]⟩
      simp only [findOneAndUpdate, if_pos ha]
      rw [findTodo]
      exact @List.find?_cons_of_pos _ (fun u => u._id == id) (upd t) ts hpu
    · have hpa : ¬ ((fun u => u._id == id) a = true) := by simp [ha]
      rw [findTodo, @List.find?_cons_of_neg _ (fun u => u._id == id) a ts hpa] at h
      obtain ⟨h1, h2, h3⟩ := ih t h
      refine ⟨?_, ?_, ?_⟩
      · simpa [findOneAndUpdate, ha] using h1
      · simp only [findOneAndUpdate, if_neg ha]
        rw [findTodo,
          @List.find?_cons_of_neg _ (fun u => u._id == id) a (findOneAndUpdate id upd ts).2 hpa]
        exact h2
      · simp only [findOneAndUpdate, if_neg ha]
        exact List.mem_cons_of_mem a h3

/-- When no document matches the id, `deleteOne` deletes nothing and
leaves the collection unchanged. -/
theorem deleteOne_not_found (id : Nat) (db : List Todo)
    (h : ∀ t ∈ db, t._id ≠ id) : deleteOne id db = (0, db) := by
  induction db with
  | nil => rfl
  | cons a ts ih =>
    have ha : a._id ≠ id := h a (List.mem_cons_self a ts)
    simp [deleteOne, ha, ih (fun t ht => h t (List.mem_cons_of_mem a ht))]

/-- The deleted count of `deleteOne` is nonzero exactly when some document
matched the id. -/
theorem deleteOne_count_pos_iff (id : Nat) (db : List Todo) :
    ((deleteOne id db).1 != 0) = true ↔ ∃ t ∈ db, t._id = id := by
  induction db with
  | nil => simp [deleteOne]
  | cons a ts ih =>
    by_cases ha : a._id = id
    · simp [deleteOne, ha]
    · simp only [deleteOne, if_neg ha]
      rw [ih]
      simp [ha]

/-- Every document left by `deleteOne` was in the collection before. -/
theorem deleteOne_mem (id : Nat) (db : List Todo) :
    ∀ t ∈ (deleteOne id db).2, t ∈ db := by
  induction db with
  | nil => simp [deleteOne]
  | cons a ts ih =>
    by_cases ha : a._id = id
    · simp only [deleteOne, if_pos ha]
      intro t ht
      exact List.mem_cons_of_mem a ht
    · simp only [deleteOne, if_neg ha]
      intro t ht
      rcases List.mem_cons.mp ht with h | h
      · exact h ▸ List.mem_cons_self a ts
      · exact List.mem_cons_of_mem a (ih t h)

/-- When ids are unique in the collection, no document matching the id
remains after `deleteOne`. -/
theorem deleteOne_no_match_left (id : Nat) (db : List Todo)
    (hnd : (db.map fun t => t._id).Nodup) :
    ∀ t ∈ (deleteOne id db).2, t._id ≠ id := by
  induction db with
  | nil => simp [deleteOne]
  | cons a ts ih =>
    rw [List.map_cons, List.nodup_cons] at hnd
    by_cases ha : a._id = id
    · simp only [deleteOne, if_pos ha]
      intro t ht hteq
      exact hnd.1 (List.mem_map.mpr ⟨t, ht, by rw [hteq, ha]⟩)
    · simp only [deleteOne, if_neg ha]
      intro t ht
      rcases List.mem_cons.mp ht with h | h
      · exact h ▸ ha
      · exact ih hnd.2 t h

/-- When ids are unique, a document with the given id exists exactly when
the count of matching documents is one. -/
theorem exists_iff_countP_eq_one (id : Nat) (db : List Todo)
    (hnd : (db.map fun t => t._id).Nodup) :
    (∃ t ∈ db, t._id = id) ↔ db.countP (fun t => t._id == id) = 1 := by
  constructor
  · intro hex
    induction db with
    | nil => simp at hex
    | cons a ts ih =>
      rw [List.map_cons, List.nodup_cons] at hnd
      by_cases ha : a._id = id
      · have hz : ts.countP (fun t => t._id == id) = 0 := by
          rw [List.countP_eq_zero]
          intro t ht
          simp only [beq_iff_eq]
          intro hteq
          exact hnd.1 (List.mem_map.mpr ⟨t, ht, by rw [hteq, ha]⟩)
        simp [List.countP_cons, ha, hz]
      · rcases hex with ⟨t, ht, hteq⟩
        rcases List.mem_cons.mp ht with h | h
        · exact absurd (h ▸ hteq) ha
        · have := ih hnd.2 ⟨t, h, hteq⟩
          simp [List.countP_cons, ha, this]
  · intro hc
    have : 0 < db.countP (fun t => t._id == id) := by omega
    rcases List.countP_pos_iff.mp this with ⟨t, ht, hp⟩
    exact ⟨t, ht, by simpa using hp⟩

/-! Lemmas about the per-field comparison and the sort. -/

/-- The per-field ascending comparison is transitive for every field
name. -/
theorem fieldLeAsc_trans (f : String) : ∀ a b c : Todo,
    fieldLeAsc f a b = true → fieldLeAsc f b c = true → fieldLeAsc f a c = true := by
  intro a b c h1 h2
  unfold fieldLeAsc at h1 h2 ⊢
  split_ifs at h1 h2 ⊢
  · exact decide_eq_true (le_trans (of_decide_eq_true h1) (of_decide_eq_true h2))
  · exact decide_eq_true (le_trans (of_decide_eq_true h1) (of_decide_eq_true h2))
  · cases ha : a.completed <;> cases hb : b.completed <;> cases hc : c.completed <;>
      simp_all
  · exact decide_eq_true (le_trans (of_decide_eq_true h1) (of_decide_eq_true h2))
  · exact decide_eq_true (le_trans (of_decide_eq_true h1) (of_decide_eq_true h2))
  · rfl

/-- The per-field ascending comparison is total for every field name. -/
theorem fieldLeAsc_total (f : String) : ∀ a b : Todo,
    (fieldLeAsc f a b || fieldLeAsc f b a) = true := by
  intro a b
  unfold fieldLeAsc
  split_ifs
  · simpa using le_total a.description b.description
  · simpa using le_total a.createdAt b.createdAt
  · cases a.completed <;> cases b.completed <;> simp
  · simpa using le_total a.priority b.priority
  · simpa using le_total a._id b._id
  · rfl

/-- The sort returns a permutation of its input. -/
theorem sortTodos_perm (f : String) (d : Bool) (l : List Todo) :
    (sortTodos f d l).Perm l := by
  unfold sortTodos
  split_ifs <;> exact List.mergeSort_perm l _

/-- An ascending sort is sorted by the field's ascending comparison. -/
theorem sortTodos_sorted_asc (f : String) (l : List Todo) :
    (sortTodos f false l).Pairwise (fun a b => fieldLeAsc f a b = true) := by
  have := @List.sorted_mergeSort Todo (fieldLeAsc f)
    (fieldLeAsc_trans f) (fieldLeAsc_total f) l
  simpa [sortTodos] using this

/-- A descending sort is sorted by the field's descending comparison. -/
theorem sortTodos_sorted_desc (f : String) (l : List Todo) :
    (sortTodos f true l).Pairwise (fun a b => fieldLeAsc f b a = true) := by
  have := @List.sorted_mergeSort Todo (fun a b => fieldLeAsc f b a)
    (fun a b c h1 h2 => fieldLeAsc_trans f c b a h2 h1)
    (fun a b => fieldLeAsc_total f b a) l
  simpa [sortTodos] using this

/-! Sample documents used to instantiate the theorems on concrete inputs. -/

/-- A sample stored document with id 1 and priority 2. -/
def sampleLow : Todo :=
  { _id := 1, description := "a", createdAt := 0, completed := false, priority := 2 }

/-- A sample stored document with id 2, completed, priority 1. -/
def sampleHigh : Todo :=
  { _id := 2, description := "b", createdAt := 5, completed := true, priority := 1 }

/-- C1: an update call with a non-positive priority argument on an existing
id stores and returns priority 1, and an update call with a positive
priority argument stores that argument (coercion, never rejection). -/
theorem update_priority_coerced (id : Nat) (d : String) (p : Int) (db : List Todo)
    (t : Todo) (h : findTodo id db = some t) :
    ∃ u : Todo, (Mutation.update id d (some p) db).1 = some u ∧
      findTodo id (Mutation.update id d (some p) db).2 = some u ∧
      (p ≤ 0 → u.priority = 1) ∧ (0 < p → u.priority = p) := by
  obtain ⟨h1, h2, _⟩ := findOneAndUpdate_found id
    (fun v => { v with description := d, priority := if p > 0 then p else 1 })
    (fun v => rfl) db t h
  refine ⟨{ t with description := d, priority := if p > 0 then p else 1 },
    by simpa [Mutation.update] using h1, by simpa [Mutation.update] using h2, ?_, ?_⟩
  · intro hp
    simp [if_neg (by omega : ¬ p > 0)]
  · intro hp
    simp [if_pos (by omega : p > 0)]

/-- Witness for C1 at a concrete input: priority -3 is stored as 1. -/
theorem update_priority_coerced_witness :
    ∃ u : Todo, (Mutation.update 1 "x" (some (-3)) [sampleLow]).1 = some u ∧
      findTodo 1 (Mutation.update 1 "x" (some (-3)) [sampleLow]).2 = some u ∧
      ((-3 : Int) ≤ 0 → u.priority = 1) ∧ ((0 : Int) < -3 → u.priority = -3) :=
  update_priority_coerced 1 "x" (-3) [sampleLow] sampleLow (by decide)

/-- C2: update and complete on an id that matches no record return `null`
and leave the collection unchanged. -/
theorem missing_id_yields_null (id : Nat) (d : String) (p : Option Int)
    (db : List Todo) (h : ∀ t ∈ db, t._id ≠ id) :
    Mutation.update id d p db = (none, db) ∧
    Mutation.complete id db = (none, db) := by
  constructor
  · simpa [Mutation.update] using findOneAndUpdate_not_found id _ db h
  · simpa [Mutation.complete] using findOneAndUpdate_not_found id _ db h

/-- Witness for C2 at a concrete input: id 99 matches nothing. -/
theorem missing_id_yields_null_witness :
    Mutation.update 99 "x" none [sampleLow] = (none, [sampleLow]) ∧
    Mutation.complete 99 [sampleLow] = (none, [sampleLow]) :=
  missing_id_yields_null 99 "x" none [sampleLow] (by decide)

/-- C6: complete on an existing id stores and returns the record with
`completed = true` and every other field unchanged. -/
theorem complete_frame (id : Nat) (db : List Todo) (t : Todo)
    (h : findTodo id db = some t) :
    (Mutation.complete id db).1 = some { t with completed := true } ∧
    findTodo id (Mutation.complete id db).2 = some { t with completed := true } ∧
    ∀ u, (Mutation.complete id db).1 = some u →
      u.completed = true ∧ u._id = t._id ∧ u.description = t.description ∧
      u.createdAt = t.createdAt ∧ u.priority = t.priority := by
  obtain ⟨h1, h2, _⟩ := findOneAndUpdate_found id
    (fun v => { v with completed := true }) (fun v => rfl) db t h
  have h1' : (Mutation.complete id db).1 = some { t with completed := true } := h1
  have h2' : findTodo id (Mutation.complete id db).2 =
      some { t with completed := true } := h2
  refine ⟨h1', h2', ?_⟩
  intro u hu
  rw [h1'] at hu
  obtain rfl := (Option.some.injEq _ _).mp hu.symm
  exact ⟨rfl, rfl, rfl, rfl, rfl⟩

/-- Witness for C6 at a concrete input: completing sampleLow. -/
theorem complete_frame_witness :
    (Mutation.complete 1 [sampleLow]).1 = some { sampleLow with completed := true } ∧
    findTodo 1 (Mutation.complete 1 [sampleLow]).2 =
      some { sampleLow with completed := true } ∧
    ∀ u, (Mutation.complete 1 [sampleLow]).1 = some u →
      u.completed = true ∧ u._id = sampleLow._id ∧
      u.description = sampleLow.description ∧
      u.createdAt = sampleLow.createdAt ∧ u.priority = sampleLow.priority :=
  complete_frame 1 [sampleLow] sampleLow (by decide)

/-- C10: an update call on an existing id with the priority argument
omitted stores priority 1, whatever the record's previous priority was. -/
theorem update_omitted_priority_is_one (id : Nat) (d : String) (db : List Todo)
    (t : Todo) (h : findTodo id db = some t) :
    ∃ u, (Mutation.update id d none db).1 = some u ∧
      findTodo id (Mutation.update id d none db).2 = some u ∧ u.priority = 1 := by
  obtain ⟨h1, h2, _⟩ := findOneAndUpdate_found id
    (fun v => { v with description := d, priority := 1 }) (fun v => rfl) db t h
  exact ⟨_, by simpa [Mutation.update] using h1,
    by simpa [Mutation.update] using h2, rfl⟩

/-- Witness for C10 at a concrete input: sampleLow has priority 2 before
the call and priority 1 after. -/
theorem update_omitted_priority_is_one_witness :
    sampleLow.priority = 2 ∧
    ∃ u, (Mutation.update 1 "x" none [sampleLow]).1 = some u ∧
      findTodo 1 (Mutation.update 1 "x" none [sampleLow]).2 = some u ∧
      u.priority = 1 :=
  ⟨rfl, update_omitted_priority_is_one 1 "x" [sampleLow] sampleLow (by decide)⟩

/-- C3: delete returns a boolean that is true exactly when one record with
the id existed (and, ids being unique, exactly one matching record was
counted); after a delete that returned true the record is gone from the
list result, and a delete that returned false left the collection
unchanged. -/
theorem delete_spec (id : Nat) (db : List Todo)
    (hnd : (db.map fun t => t._id).Nodup) :
    ((Mutation.delete id db).1 = true ↔
       db.countP (fun t => t._id == id) = 1) ∧
    ((Mutation.delete id db).1 = false ↔ ∀ t ∈ db, t._id ≠ id) ∧
    ((Mutation.delete id db).1 = true →
       Query.todosList none "ASC" none (Mutation.delete id db).2 =
         Except.ok (Mutation.delete id db).2 ∧
       ∀ t ∈ (Mutation.delete id db).2, t._id ≠ id) ∧
    ((Mutation.delete id db).1 = false → (Mutation.delete id db).2 = db) := by
  have hiff : (Mutation.delete id db).1 = true ↔ ∃ t ∈ db, t._id = id := by
    simpa [Mutation.delete] using deleteOne_count_pos_iff id db
  refine ⟨?_, ?_, ?_, ?_⟩
  · rw [hiff]
    exact exists_iff_countP_eq_one id db hnd
  · constructor
    · intro hf t ht hteq
      have := hiff.mpr ⟨t, ht, hteq⟩
      rw [hf] at this
      cases this
    · intro hall
      cases hb : (Mutation.delete id db).1
      · rfl
      · obtain ⟨t, ht, hteq⟩ := hiff.mp hb
        exact absurd hteq (hall t ht)
  · intro _
    exact ⟨rfl, fun t ht => deleteOne_no_match_left id db hnd t ht⟩
  · intro hfalse
    have hall : ∀ t ∈ db, t._id ≠ id := by
      intro t ht hteq
      have := hiff.mpr ⟨t, ht, hteq⟩
      rw [hfalse] at this
      cases this
    have := deleteOne_not_found id db hall
    simp [Mutation.delete, this]

/-- Witness for C3 at a concrete input: deleting id 1 from a two-record
collection. -/
theorem delete_spec_witness :
    ((Mutation.delete 1 [sampleLow, sampleHigh]).1 = true ↔
       List.countP (fun t => t._id == 1) [sampleLow, sampleHigh] = 1) ∧
    ((Mutation.delete 1 [sampleLow, sampleHigh]).1 = false ↔
       ∀ t ∈ [sampleLow, sampleHigh], t._id ≠ 1) ∧
    ((Mutation.delete 1 [sampleLow, sampleHigh]).1 = true →
       Query.todosList none "ASC" none (Mutation.delete 1 [sampleLow, sampleHigh]).2 =
         Except.ok (Mutation.delete 1 [sampleLow, sampleHigh]).2 ∧
       ∀ t ∈ (Mutation.delete 1 [sampleLow, sampleHigh]).2, t._id ≠ 1) ∧
    ((Mutation.delete 1 [sampleLow, sampleHigh]).1 = false →
       (Mutation.delete 1 [sampleLow, sampleHigh]).2 = [sampleLow, sampleHigh]) :=
  delete_spec 1 [sampleLow, sampleHigh] (by decide)

/-- C4: list with a completed argument returns exactly the records whose
completed field has that value, and list with the argument omitted returns
every record with no filter applied. -/
theorem todosList_completed_filter (db : List Todo) (b : Bool) (t : Todo) :
    Query.todosList none "ASC" (some b) db =
      Except.ok (db.filter fun u => u.completed == b) ∧
    (t ∈ db.filter (fun u => u.completed == b) ↔ t ∈ db ∧ t.completed = b) ∧
    Query.todosList none "ASC" none db = Except.ok db := by
  refine ⟨rfl, ?_, rfl⟩
  simp [List.mem_filter]

/-- C5: create with every optional argument omitted stores completed =
false, priority = 1 and createdAt = the current time, and for any
arguments the returned Todo is the newly persisted record carrying the
assigned id. -/
theorem create_defaults (now : Int) (newId : Nat) (d : String) (db : List Todo) :
    Mutation.create now newId ⟨d, none, none, none⟩ db =
      ({ _id := newId, description := d, createdAt := now,
         completed := false, priority := 1 },
       db ++ [{ _id := newId, description := d, createdAt := now,
                completed := false, priority := 1 }]) ∧
    ∀ a : CreateArgs,
      (Mutation.create now newId a db).1 ∈ (Mutation.create now newId a db).2 ∧
      ((Mutation.create now newId a db).1)._id = newId := by
  refine ⟨rfl, ?_⟩
  intro a
  exact ⟨by simp [Mutation.create], rfl⟩

/-- C9: create with an explicit priority argument stores that value
unchanged, zero or negative included: create performs no coercion. -/
theorem create_priority_uncoerced (now : Int) (newId : Nat) (d : String)
    (ca : Option Int) (c : Option Bool) (p : Int) (db : List Todo) :
    ((Mutation.create now newId ⟨d, ca, c, some p⟩ db).1).priority = p ∧
    (Mutation.create now newId ⟨d, ca, c, some p⟩ db).1 ∈
      (Mutation.create now newId ⟨d, ca, c, some p⟩ db).2 :=
  ⟨rfl, by simp [Mutation.create]⟩

/-- C8: the code evaluated at the failing input.  serialize and
parseValue on a numeric value behave as the claim states (the
epoch-millisecond integer comes back out), but parseLiteral hands the
INT node's raw string to `new Date`, which date-string-parses it: on the
epoch-millisecond literal 1616161616161 it produces an invalid date
(time NaN), which is not the timestamp with time 1616161616161 the claim
requires; a non-INT literal yields null. -/
theorem date_scalar_literal_bug (n : Int) :
    DateScalar.serialize (DateScalar.parseValue (JSValue.num n)) = JSTime.msec n ∧
    DateScalar.serialize ⟨JSTime.msec n⟩ = JSTime.msec n ∧
    DateScalar.parseLiteral ⟨GKind.INT, "1616161616161"⟩ =
      some ⟨JSTime.nan⟩ ∧
    (JSTime.nan == JSTime.msec 1616161616161) = false ∧
    DateScalar.parseLiteral ⟨GKind.STRING, "1616161616161"⟩ = none := by
  refine ⟨rfl, rfl, ?_, by decide, by decide⟩
  decide

/-- C7: when sortBy names a Todo field, the returned sequence is a
permutation of the filtered records sorted by that field, ascending for
order ASC, descending for order DESC; when sortBy is omitted the records
come back in storage-native order with no sort applied. -/
theorem todosList_sort_spec (f : String) (c : Option Bool) (db l : List Todo)
    (hf : f = "description" ∨ f = "createdAt" ∨ f = "completed" ∨
      f = "priority" ∨ f = "_id") :
    (Query.todosList (some f) "ASC" c db = Except.ok l →
       l.Perm (applyFilter c db) ∧
       l.Pairwise (fun a b => fieldLeAsc f a b = true)) ∧
    (Query.todosList (some f) "DESC" c db = Except.ok l →
       l.Perm (applyFilter c db) ∧
       l.Pairwise (fun a b => fieldLeAsc f b a = true)) ∧
    Query.todosList none "ASC" c db = Except.ok (applyFilter c db) := by
  have hne : f ≠ "" := by
    rcases hf with h | h | h | h | h <;> simp [h]
  have hasc : parseOrder "ASC" = some false := by decide
  have hdesc : parseOrder "DESC" = some true := by decide
  refine ⟨?_, ?_, rfl⟩
  · intro h
    have heq : Query.todosList (some f) "ASC" c db =
        Except.ok (sortTodos f false (applyFilter c db)) := by
      simp [Query.todosList, hne, hasc]
    rw [heq] at h
    obtain rfl := Except.ok.inj h
    exact ⟨sortTodos_perm f false _, sortTodos_sorted_asc f _⟩
  · intro h
    have heq : Query.todosList (some f) "DESC" c db =
        Except.ok (sortTodos f true (applyFilter c db)) := by
      simp [Query.todosList, hne, hdesc]
    rw [heq] at h
    obtain rfl := Except.ok.inj h
    exact ⟨sortTodos_perm f true _, sortTodos_sorted_desc f _⟩

/-- Witness for C7 at a concrete input: listing a singleton collection
sorted by priority ascending, and listing with sortBy omitted. -/
theorem todosList_sort_spec_witness :
    (([sampleLow] : List Todo).Perm (applyFilter none [sampleLow]) ∧
      List.Pairwise (fun a b => fieldLeAsc "priority" a b = true) [sampleLow]) ∧
    Query.todosList none "ASC" none [sampleLow, sampleHigh] =
      Except.ok (applyFilter none [sampleLow, sampleHigh]) := by
  have h1 := todosList_sort_spec "priority" none [sampleLow] [sampleLow]
    (Or.inr (Or.inr (Or.inr (Or.inl rfl))))
  have h2 := todosList_sort_spec "priority" none [sampleLow, sampleHigh]
    [sampleLow, sampleHigh] (Or.inr (Or.inr (Or.inr (Or.inl rfl))))
  refine ⟨h1.1 ?_, h2.2.2⟩
  simp [Query.todosList, sortTodos, parseOrder, jsToLower, applyFilter]
